import Mathlib

/-
Verification of the lock-lease lifecycle manager
(src/query/service/src/locks/lock_holder.rs).

The renewal task is embedded as a deterministic interpreter over oracle
scripts describing the external world: the catalog answers to each RPC,
the successive answers of the backoff policy, the raw randomness fed to
the jittered renewal sleep, whether the session registry finds the owning
query, and the time (in observation points) at which the shared shutdown
state is seen fired.  Each run returns an optional result (`none` means
the oracle script ran out while the loop would continue) together with a
chronological trace of observable events.
-/

deriving instance DecidableEq for Except

namespace DatabendLock

/-- Error payload carried by catalog and lock-holder failures: a numeric
code plus a message, mirroring the source ErrorCode type.  The numeric
values are opaque tags; the lock holder only ever compares a code against
the distinguished TABLE_LOCK_EXPIRED code. -/
structure ErrorCode where
  code : Nat
  message : String
deriving Repr, DecidableEq

/-- The distinguished lock-expired condition reported by the catalog
(ErrorCode::TABLE_LOCK_EXPIRED in the source). -/
def TABLE_LOCK_EXPIRED : Nat := 2725

/-- Code of the synthesized retry-exhaustion error
(ErrorCode::OCCRetryFailure in the source). -/
def OCC_RETRY_FAILURE : Nat := 4012

/-- Build an OCCRetryFailure error with the given message. -/
def occRetryFailure (msg : String) : ErrorCode :=
  { code := OCC_RETRY_FAILURE, message := msg }

/-- The retry-exhaustion error synthesized by try_extend_lock when the
backoff policy reports that its elapsed budget is exhausted (the dynamic
elapsed-time text of the source message is elided). -/
def extendRetryExhausted : ErrorCode :=
  occRetryFailure "failed to extend the lock after retries, aborted"

/-- The retry-exhaustion error synthesized by try_delete_lock. -/
def deleteRetryExhausted : ErrorCode :=
  occRetryFailure "failed to delete the lock after retries, aborted"

/-- Identity of the protected resource: lock kind plus table id. -/
structure LockKey where
  lockType : String
  tableId : Nat
deriving Repr, DecidableEq

/-- The acquisition request handed to start: the lock key and the ttl. -/
structure CreateLockRevReq where
  lock_key : LockKey
  ttl : Nat
deriving Repr, DecidableEq

/-- Observable actions of the lock holder, recorded in traces in
chronological order.  A sleep event notes whether the wait was raced
against the shutdown signal via select (true) or was a plain sleep
(false).  newBackoff records the elapsed budget handed to set_backoff. -/
inductive Event where
  | createCall : Event
  | metricIncr : Event
  | extendCall : Event
  | deleteCall : Event
  | newBackoff (budget : Option Nat) : Event
  | renewalSleep (d : Nat) (raced : Bool) : Event
  | backoffSleep (d : Nat) (raced : Bool) : Event
  | forceAbort (e : ErrorCode) : Event
deriving Repr, DecidableEq

/-- Recognizer for the create-lock-revision RPC event. -/
def isCreateCall : Event → Bool
  | Event.createCall => true
  | _ => false

/-- Recognizer for the metric-increment event. -/
def isMetricIncr : Event → Bool
  | Event.metricIncr => true
  | _ => false

/-- Recognizer for the extend-lock-revision RPC event. -/
def isExtendCall : Event → Bool
  | Event.extendCall => true
  | _ => false

/-- Recognizer for the delete-lock-revision RPC event. -/
def isDeleteCall : Event → Bool
  | Event.deleteCall => true
  | _ => false

/-- Recognizer for a force-abort of the owning query, any error. -/
def isAbort : Event → Bool
  | Event.forceAbort _ => true
  | _ => false

/-- Recognizer for a force-abort carrying exactly the error e. -/
def isAbortWith (e : ErrorCode) : Event → Bool :=
  fun ev => ev == Event.forceAbort e

/-- Recognizer for the randomized renewal-interval sleep event. -/
def isRenewalSleep : Event → Bool
  | Event.renewalSleep _ _ => true
  | _ => false

/-- True when the event, if it is a sleep, was raced against the shutdown
signal. -/
def sleepRacedOk : Event → Bool
  | Event.renewalSleep _ b => b
  | Event.backoffSleep _ b => b
  | _ => true

/-- True when every sleep event of the trace was raced against the
shutdown signal. -/
def allSleepsRaced (tr : List Event) : Bool :=
  tr.all sleepRacedOk

/-- Modelled from the spec: the shared shutdown state (the atomic shutdown
flag plus the level-triggered WatchNotify signal, implemented outside src)
observed at discrete observation points.  shutdownAt = none means shutdown
is never requested; shutdownAt = some k means every observation from
index k on sees the state fired.  Level-triggering makes this monotone. -/
def fired (shutdownAt : Option Nat) (i : Nat) : Bool :=
  match shutdownAt with
  | none => false
  | some k => Nat.ble k i

/-- Modelled from the spec: gen_range over the inclusive range lo..=hi —
a uniform sample, represented by reducing an arbitrary random seed r into
the range. -/
def genRange (lo hi r : Nat) : Nat := lo + r % (hi - lo + 1)

/-- The retry loop of LockHolder::try_extend_lock (lock_holder.rs lines
128-171).  responses gives the catalog answer to each successive
extend_lock_revision RPC; backoff gives each successive next_backoff
answer of the policy (some d = retry after delay d, none = elapsed budget
exhausted); shutdownAt and obs time the shared shutdown state, obs
advancing by one at each flag check and at each raced wait. -/
def tryExtendLockLoop (responses : List (Except ErrorCode Unit))
    (backoff : List (Option Nat)) (shutdownAt : Option Nat) (obs : Nat) :
    Option (Except ErrorCode Unit) × List Event × Nat :=
  if fired shutdownAt obs then (some (Except.ok ()), [], obs + 1)
  else
    match responses with
    | [] => (none, [], obs + 1)
    | (Except.ok _) :: _ => (some (Except.ok ()), [Event.extendCall], obs + 1)
    | (Except.error e) :: rest =>
      if e.code = TABLE_LOCK_EXPIRED then
        (some (Except.error e), [Event.extendCall], obs + 1)
      else
        match backoff with
        | [] => (none, [Event.extendCall], obs + 1)
        | none :: _ =>
          (some (Except.error extendRetryExhausted), [Event.extendCall], obs + 1)
        | some d :: brest =>
          if fired shutdownAt (obs + 1) then
            (some (Except.ok ()),
             [Event.extendCall, Event.backoffSleep d true], obs + 2)
          else
            let r := tryExtendLockLoop rest brest shutdownAt (obs + 2)
            (r.1, Event.extendCall :: Event.backoffSleep d true :: r.2.1, r.2.2)

/-- LockHolder::try_extend_lock: builds a fresh backoff policy with the
given elapsed budget (set_backoff with 2ms initial delay), then runs the
retry loop. -/
def tryExtendLock (responses : List (Except ErrorCode Unit))
    (backoff : List (Option Nat)) (maxRetryElapsed : Option Nat)
    (shutdownAt : Option Nat) (obs : Nat) :
    Option (Except ErrorCode Unit) × List Event × Nat :=
  let r := tryExtendLockLoop responses backoff shutdownAt obs
  (r.1, Event.newBackoff maxRetryElapsed :: r.2.1, r.2.2)

/-- The retry loop of LockHolder::try_delete_lock (lock_holder.rs lines
180-206).  responses gives the catalog answer to each successive
delete_lock_revision RPC (true = success).  Note: the backoff sleep here
is a plain sleep, not raced against the shutdown signal, and the loop
never consults the shutdown flag — exactly as in the source. -/
def tryDeleteLockLoop (responses : List Bool) (backoff : List (Option Nat)) :
    Option (Except ErrorCode Unit) × List Event :=
  match responses with
  | [] => (none, [])
  | true :: _ => (some (Except.ok ()), [Event.deleteCall])
  | false :: rest =>
    match backoff with
    | [] => (none, [Event.deleteCall])
    | none :: _ =>
      (some (Except.error deleteRetryExhausted), [Event.deleteCall])
    | some d :: brest =>
      let r := tryDeleteLockLoop rest brest
      (r.1, Event.deleteCall :: Event.backoffSleep d false :: r.2)

/-- LockHolder::try_delete_lock: fresh backoff policy with the given
elapsed budget, then the retry loop. -/
def tryDeleteLock (responses : List Bool) (backoff : List (Option Nat))
    (maxRetryElapsed : Option Nat) :
    Option (Except ErrorCode Unit) × List Event :=
  let r := tryDeleteLockLoop responses backoff
  (r.1, Event.newBackoff maxRetryElapsed :: r.2)

/-- Oracle script for one iteration of the renewal loop: the raw
randomness for the jittered sleep and the catalog/backoff scripts for the
extension campaign this iteration would run. -/
structure Round where
  rand : Nat
  extendResponses : List (Except ErrorCode Unit)
  extendBackoff : List (Option Nat)
deriving Repr, DecidableEq

/-- The renewal loop spawned by LockHolder::start (lock_holder.rs lines
70-106): while the shutdown flag is unset, sample a jittered sleep from
the range ttl/3 ..= ttl*2/3, race it against the shutdown signal; if the
sleep wins, run one extension campaign with elapsed budget
ttl - rand_sleep_duration; on campaign failure force-kill the owning
query (when the session registry finds it) and return the error without
deleting; on shutdown, fall through to try_delete_lock with elapsed
budget ttl. -/
def renewalTaskLoop (ttl : Nat) (rounds : List Round)
    (deleteResponses : List Bool) (deleteBackoff : List (Option Nat))
    (sessionFound : Bool) (shutdownAt : Option Nat) (obs : Nat) :
    Option (Except ErrorCode Unit) × List Event :=
  if fired shutdownAt obs then
    tryDeleteLock deleteResponses deleteBackoff (some ttl)
  else
    match rounds with
    | [] => (none, [])
    | round :: rest =>
      let d := genRange (ttl / 3) (ttl * 2 / 3) round.rand
      if fired shutdownAt (obs + 1) then
        let r := tryDeleteLock deleteResponses deleteBackoff (some ttl)
        (r.1, Event.renewalSleep d true :: r.2)
      else
        let c := tryExtendLock round.extendResponses round.extendBackoff
                   (some (ttl - d)) shutdownAt (obs + 2)
        match c.1 with
        | none => (none, Event.renewalSleep d true :: c.2.1)
        | some (Except.error e) =>
          (some (Except.error e),
           Event.renewalSleep d true :: c.2.1
             ++ (if sessionFound then [Event.forceAbort e] else []))
        | some (Except.ok _) =>
          let r := renewalTaskLoop ttl rest deleteResponses deleteBackoff
                     sessionFound shutdownAt c.2.2
          (r.1, Event.renewalSleep d true :: c.2.1 ++ r.2)

/-- The renewal task, started with observation counter zero. -/
def renewalTask (ttl : Nat) (rounds : List Round)
    (deleteResponses : List Bool) (deleteBackoff : List (Option Nat))
    (sessionFound : Bool) (shutdownAt : Option Nat) :
    Option (Except ErrorCode Unit) × List Event :=
  renewalTaskLoop ttl rounds deleteResponses deleteBackoff sessionFound
    shutdownAt 0

/-- Modelled from the spec: the only cross-task shared state — the atomic
shutdown flag and the level-triggered WatchNotify signal (the signal
implementation lives outside src; the spec fixes it as level-triggered:
once fired it stays fired, and firing again is a no-op). -/
structure SharedState where
  shutdown_flag : Bool
  notify_fired : Bool
deriving Repr, DecidableEq

/-- Modelled from the spec: firing the level-triggered signal (notify_one
on a WatchNotify): the fired state persists; firing it again changes
nothing. -/
def notifyOne (s : SharedState) : SharedState :=
  { s with notify_fired := true }

/-- LockHolder::shutdown (lock_holder.rs lines 113-116): store true into
the shutdown flag, then fire the shutdown signal. -/
def shutdownOp (s : SharedState) : SharedState :=
  notifyOne { s with shutdown_flag := true }

/-- What the caller of start observes: the returned result, the
caller-side events (create RPC, metric), and whether a renewal task was
spawned. -/
structure StartOutcome where
  result : Except ErrorCode Nat
  events : List Event
  spawned : Bool
deriving Repr, DecidableEq

/-- LockHolder::start (lock_holder.rs lines 49-111): call the create RPC
once (createRes is the catalog answer); on failure propagate it with no
metric and no task; on success record the metric, spawn the renewal task
(returned as its run on the given oracle scripts, not awaited), and
return the revision from the catalog response. -/
def start (req : CreateLockRevReq) (createRes : Except ErrorCode Nat)
    (rounds : List Round) (deleteResponses : List Bool)
    (deleteBackoff : List (Option Nat)) (sessionFound : Bool)
    (shutdownAt : Option Nat) :
    StartOutcome × Option (Option (Except ErrorCode Unit) × List Event) :=
  match createRes with
  | Except.error e =>
    ({ result := Except.error e, events := [Event.createCall],
       spawned := false }, none)
  | Except.ok revision =>
    ({ result := Except.ok revision,
       events := [Event.createCall, Event.metricIncr], spawned := true },
     some (renewalTask req.ttl rounds deleteResponses deleteBackoff
             sessionFound shutdownAt))

/-- Events that the extension retry loop may emit: extend RPCs, backoff
creations, and raced backoff sleeps. -/
def extendEvOk : Event → Bool
  | Event.extendCall => true
  | Event.newBackoff _ => true
  | Event.backoffSleep _ b => b
  | _ => false

/-- Events that the deletion retry loop may emit: delete RPCs, backoff
creations, and unraced backoff sleeps. -/
def deleteEvOk : Event → Bool
  | Event.deleteCall => true
  | Event.newBackoff _ => true
  | Event.backoffSleep _ b => !b
  | _ => false

lemma fired_none (i : Nat) : fired none i = false := rfl

lemma fired_succ {k i : Nat} (h : fired (some k) i = true) :
    fired (some k) (i + 1) = true := by
  simp only [fired, Nat.ble_eq] at h ⊢
  omega

lemma all_imp {l : List Event} {p q : Event → Bool} (h : l.all p = true)
    (hpq : ∀ ev, p ev = true → q ev = true) : l.all q = true := by
  rw [List.all_eq_true] at h ⊢
  exact fun a ha => hpq a (h a ha)

lemma countP_zero_of_all {l : List Event} {p q : Event → Bool}
    (h : l.all p = true) (hq : ∀ ev, p ev = true → q ev = false) :
    l.countP q = 0 := by
  rw [List.countP_eq_zero]
  intro a ha
  have h1 := (List.all_eq_true.mp h) a ha
  simp [hq a h1]

lemma countP_zero_mono {l : List Event} {p q : Event → Bool}
    (h : l.countP q = 0) (hpq : ∀ ev, p ev = true → q ev = true) :
    l.countP p = 0 := by
  rw [List.countP_eq_zero] at h ⊢
  intro a ha hpa
  exact h a ha (hpq a hpa)

lemma extendLoop_events (rs : List (Except ErrorCode Unit)) :
    ∀ (bs : List (Option Nat)) (sAt : Option Nat) (obs : Nat),
      ((tryExtendLockLoop rs bs sAt obs).2.1).all extendEvOk = true := by
  induction rs with
  | nil =>
    intro bs sAt obs
    by_cases h : fired sAt obs = true <;> simp [tryExtendLockLoop, h]
  | cons r rest ih =>
    intro bs sAt obs
    cases r with
    | ok u =>
      by_cases h : fired sAt obs = true <;> simp [tryExtendLockLoop, h, extendEvOk]
    | error e =>
      by_cases h : fired sAt obs = true
      · simp [tryExtendLockLoop, h]
      · by_cases he : e.code = TABLE_LOCK_EXPIRED
        · simp [tryExtendLockLoop, h, he, extendEvOk]
        · cases bs with
          | nil => simp [tryExtendLockLoop, h, he, extendEvOk]
          | cons b brest =>
            cases b with
            | none => simp [tryExtendLockLoop, h, he, extendEvOk]
            | some d =>
              by_cases h2 : fired sAt (obs + 1) = true
              · simp [tryExtendLockLoop, h, he, h2, extendEvOk]
              · simp [tryExtendLockLoop, h, he, h2, extendEvOk, ih]

lemma extendLock_events (rs : List (Except ErrorCode Unit))
    (bs : List (Option Nat)) (mre sAt : Option Nat) (obs : Nat) :
    ((tryExtendLock rs bs mre sAt obs).2.1).all extendEvOk = true := by
  simp [tryExtendLock, extendEvOk, extendLoop_events]

lemma deleteLoop_events (rs : List Bool) :
    ∀ (bs : List (Option Nat)),
      ((tryDeleteLockLoop rs bs).2).all deleteEvOk = true := by
  induction rs with
  | nil => intro bs; simp [tryDeleteLockLoop]
  | cons r rest ih =>
    intro bs
    cases r with
    | true => simp [tryDeleteLockLoop, deleteEvOk]
    | false =>
      cases bs with
      | nil => simp [tryDeleteLockLoop, deleteEvOk]
      | cons b brest =>
        cases b with
        | none => simp [tryDeleteLockLoop, deleteEvOk]
        | some d => simp [tryDeleteLockLoop, deleteEvOk, ih]

lemma deleteLock_events (rs : List Bool) (bs : List (Option Nat))
    (mre : Option Nat) :
    ((tryDeleteLock rs bs mre).2).all deleteEvOk = true := by
  simp [tryDeleteLock, deleteEvOk, deleteLoop_events]

lemma extendLock_no_delete (rs : List (Except ErrorCode Unit))
    (bs : List (Option Nat)) (mre sAt : Option Nat) (obs : Nat) :
    ((tryExtendLock rs bs mre sAt obs).2.1).countP isDeleteCall = 0 :=
  countP_zero_of_all (extendLock_events rs bs mre sAt obs)
    (by intro ev hev; cases ev <;> simp_all [extendEvOk, isDeleteCall])

lemma extendLock_no_abort (rs : List (Except ErrorCode Unit))
    (bs : List (Option Nat)) (mre sAt : Option Nat) (obs : Nat) :
    ((tryExtendLock rs bs mre sAt obs).2.1).countP isAbort = 0 :=
  countP_zero_of_all (extendLock_events rs bs mre sAt obs)
    (by intro ev hev; cases ev <;> simp_all [extendEvOk, isAbort])

lemma extendLock_no_renewalSleep (rs : List (Except ErrorCode Unit))
    (bs : List (Option Nat)) (mre sAt : Option Nat) (obs d : Nat) (b : Bool) :
    Event.renewalSleep d b ∉ (tryExtendLock rs bs mre sAt obs).2.1 := by
  intro hmem
  have h1 := List.all_eq_true.mp (extendLock_events rs bs mre sAt obs) _ hmem
  simp [extendEvOk] at h1

lemma extendLock_sleeps_raced (rs : List (Except ErrorCode Unit))
    (bs : List (Option Nat)) (mre sAt : Option Nat) (obs : Nat) :
    allSleepsRaced ((tryExtendLock rs bs mre sAt obs).2.1) = true :=
  all_imp (extendLock_events rs bs mre sAt obs)
    (by intro ev hev; cases ev <;> simp_all [extendEvOk, sleepRacedOk])

lemma deleteLock_no_abort (rs : List Bool) (bs : List (Option Nat))
    (mre : Option Nat) :
    ((tryDeleteLock rs bs mre).2).countP isAbort = 0 :=
  countP_zero_of_all (deleteLock_events rs bs mre)
    (by intro ev hev; cases ev <;> simp_all [deleteEvOk, isAbort])

lemma deleteLock_no_extend (rs : List Bool) (bs : List (Option Nat))
    (mre : Option Nat) :
    ((tryDeleteLock rs bs mre).2).countP isExtendCall = 0 :=
  countP_zero_of_all (deleteLock_events rs bs mre)
    (by intro ev hev; cases ev <;> simp_all [deleteEvOk, isExtendCall])

lemma deleteLock_no_renewalSleep (rs : List Bool) (bs : List (Option Nat))
    (mre : Option Nat) (d : Nat) (b : Bool) :
    Event.renewalSleep d b ∉ (tryDeleteLock rs bs mre).2 := by
  intro hmem
  have h1 := List.all_eq_true.mp (deleteLock_events rs bs mre) _ hmem
  simp [deleteEvOk] at h1

lemma deleteLock_sleeps_unraced (rs : List Bool) (bs : List (Option Nat))
    (mre : Option Nat) (d : Nat) (b : Bool)
    (hmem : Event.backoffSleep d b ∈ (tryDeleteLock rs bs mre).2) :
    b = false := by
  have h1 := List.all_eq_true.mp (deleteLock_events rs bs mre) _ hmem
  simp [deleteEvOk] at h1
  exact h1

lemma campaignHeadOk (rs : List (Except ErrorCode Unit))
    (hhd : rs.head? = some (Except.ok ())) (bs : List (Option Nat))
    (sAt : Option Nat) (obs : Nat) :
    (tryExtendLockLoop rs bs sAt obs).1 = some (Except.ok ()) := by
  cases rs with
  | nil => simp at hhd
  | cons a t =>
    simp at hhd
    subst hhd
    by_cases h : fired sAt obs = true <;> simp [tryExtendLockLoop, h]

lemma headOk_trace (rs : List (Except ErrorCode Unit))
    (hhd : rs.head? = some (Except.ok ())) (bs : List (Option Nat))
    (obs : Nat) :
    tryExtendLockLoop rs bs none obs
      = (some (Except.ok ()), [Event.extendCall], obs + 1) := by
  cases rs with
  | nil => simp at hhd
  | cons a t =>
    simp at hhd
    subst hhd
    simp [tryExtendLockLoop, fired_none]

lemma taskLoopPre (pre : List Round)
    (hpre : ∀ rd ∈ pre, rd.extendResponses.head? = some (Except.ok ())) :
    ∀ (ttl : Nat) (rest : List Round) (delR : List Bool)
      (delB : List (Option Nat)) (sf : Bool) (obs : Nat),
    ∃ (tr0 : List Event) (obs2 : Nat),
      renewalTaskLoop ttl (pre ++ rest) delR delB sf none obs
        = ((renewalTaskLoop ttl rest delR delB sf none obs2).1,
           tr0 ++ (renewalTaskLoop ttl rest delR delB sf none obs2).2)
      ∧ tr0.countP isExtendCall = pre.length
      ∧ tr0.countP isDeleteCall = 0
      ∧ tr0.countP isAbort = 0 := by
  induction pre with
  | nil =>
    intro ttl rest delR delB sf obs
    exact ⟨[], obs, by simp, by simp, by simp, by simp⟩
  | cons rd pre ih =>
    intro ttl rest delR delB sf obs
    have hhd := hpre rd (List.mem_cons_self _ _)
    have htl : ∀ r ∈ pre, r.extendResponses.head? = some (Except.ok ()) :=
      fun r hr => hpre r (List.mem_cons_of_mem _ hr)
    obtain ⟨tr1, obs2, heq, h1, h2, h3⟩ :=
      ih htl ttl rest delR delB sf (obs + 3)
    refine ⟨Event.renewalSleep (genRange (ttl / 3) (ttl * 2 / 3) rd.rand) true
        :: Event.newBackoff
             (some (ttl - genRange (ttl / 3) (ttl * 2 / 3) rd.rand))
        :: Event.extendCall :: tr1, obs2, ?_, ?_, ?_, ?_⟩
    · rw [List.cons_append, renewalTaskLoop]
      simp only [fired_none, Bool.false_eq_true, if_false, cond_false]
      simp only [renewalTaskLoop, tryExtendLock,
        headOk_trace rd.extendResponses hhd rd.extendBackoff (obs + 2),
        fired_none, heq]
      simp
    · simp [List.countP_cons, isExtendCall, h1, Nat.add_comm]
    · simp [List.countP_cons, isDeleteCall, h2]
    · simp [List.countP_cons, isAbort, h3]

lemma taskLoopExpired (ttl : Nat) (bad : Round) (e : ErrorCode)
    (tail : List (Except ErrorCode Unit))
    (hbad : bad.extendResponses = Except.error e :: tail)
    (he : e.code = TABLE_LOCK_EXPIRED) (rest : List Round) (delR : List Bool)
    (delB : List (Option Nat)) (sf : Bool) (obs : Nat) :
    renewalTaskLoop ttl (bad :: rest) delR delB sf none obs
      = (some (Except.error e),
         Event.renewalSleep (genRange (ttl / 3) (ttl * 2 / 3) bad.rand) true
           :: Event.newBackoff
                (some (ttl - genRange (ttl / 3) (ttl * 2 / 3) bad.rand))
           :: Event.extendCall
           :: (if sf then [Event.forceAbort e] else [])) := by
  rw [renewalTaskLoop]
  simp [fired_none, tryExtendLock, tryExtendLockLoop, hbad, he]

/-- C1: if an extension attempt fails with the distinguished
TABLE_LOCK_EXPIRED condition, that attempt is not retried (exactly one
more extend RPC than the earlier successful campaigns), the owning query
is force-aborted exactly once with that same error when its session is
found, and the renewal task terminates with that error without ever
calling delete_lock_revision. -/
theorem lockHolder_C1_expired_fatal_no_retry_no_delete
    (ttl : Nat) (pre : List Round)
    (hpre : ∀ rd ∈ pre, rd.extendResponses.head? = some (Except.ok ()))
    (e : ErrorCode) (he : e.code = TABLE_LOCK_EXPIRED)
    (bad : Round) (tail : List (Except ErrorCode Unit))
    (hbad : bad.extendResponses = Except.error e :: tail)
    (rest : List Round) (delR : List Bool) (delB : List (Option Nat))
    (sf : Bool) :
    (renewalTask ttl (pre ++ bad :: rest) delR delB sf none).1
        = some (Except.error e)
    ∧ ((renewalTask ttl (pre ++ bad :: rest) delR delB sf none).2).countP
        isDeleteCall = 0
    ∧ ((renewalTask ttl (pre ++ bad :: rest) delR delB sf none).2).countP
        (isAbortWith e) = (if sf then 1 else 0)
    ∧ ((renewalTask ttl (pre ++ bad :: rest) delR delB sf none).2).countP
        isAbort = (if sf then 1 else 0)
    ∧ ((renewalTask ttl (pre ++ bad :: rest) delR delB sf none).2).countP
        isExtendCall = pre.length + 1 := by
  obtain ⟨tr0, obs2, heq, h1, h2, h3⟩ :=
    taskLoopPre pre hpre ttl (bad :: rest) delR delB sf 0
  have hbadeq := taskLoopExpired ttl bad e tail hbad he rest delR delB sf obs2
  have habw : tr0.countP (isAbortWith e) = 0 :=
    countP_zero_mono h3
      (by intro ev hev; cases ev <;> simp_all [isAbortWith, isAbort])
  rw [renewalTask, heq, hbadeq]
  cases sf <;>
    simp [List.countP_append, List.countP_cons, h1, h2, h3, habw,
      isDeleteCall, isAbortWith, isAbort, isExtendCall, Nat.add_comm]

lemma extendLoopExhaust :
    ∀ (ds : List Nat) (es : List ErrorCode) (obs : Nat),
      (∀ e ∈ es, e.code ≠ TABLE_LOCK_EXPIRED) →
      es.length = ds.length + 1 →
      (tryExtendLockLoop (es.map Except.error)
          (ds.map some ++ [none]) none obs).1
          = some (Except.error extendRetryExhausted)
      ∧ ((tryExtendLockLoop (es.map Except.error)
            (ds.map some ++ [none]) none obs).2.1).countP isExtendCall
          = es.length := by
  intro ds
  induction ds with
  | nil =>
    intro es obs hcode hlen
    cases es with
    | nil => simp at hlen
    | cons e es2 =>
      have hes2 : es2 = [] := by
        cases es2 with
        | nil => rfl
        | cons x xs => simp at hlen
      subst hes2
      have he : e.code ≠ TABLE_LOCK_EXPIRED := hcode e (by simp)
      constructor <;> simp [tryExtendLockLoop, fired_none, he, isExtendCall]
  | cons d ds ih =>
    intro es obs hcode hlen
    cases es with
    | nil => simp at hlen
    | cons e es2 =>
      have hlen2 : es2.length = ds.length + 1 := by simpa using hlen
      have he : e.code ≠ TABLE_LOCK_EXPIRED := hcode e (by simp)
      have hcode2 : ∀ x ∈ es2, x.code ≠ TABLE_LOCK_EXPIRED :=
        fun x hx => hcode x (by simp [hx])
      obtain ⟨ha, hb⟩ := ih es2 (obs + 2) hcode2 hlen2
      constructor
      · simp [tryExtendLockLoop, fired_none, he, ha]
      · simp [tryExtendLockLoop, fired_none, he, List.countP_cons,
          isExtendCall, hb, Nat.add_comm]

/-- C2: if transient extension failures persist until the backoff policy
reports its elapsed budget exhausted, the renewal task stops retrying,
returns the synthesized retry-exhaustion error, force-aborts the owning
query with it exactly once when its session is found, and never calls
delete_lock_revision. -/
theorem lockHolder_C2_retry_exhaustion_aborts_no_delete
    (ttl : Nat) (pre : List Round)
    (hpre : ∀ rd ∈ pre, rd.extendResponses.head? = some (Except.ok ()))
    (es : List ErrorCode) (ds : List Nat)
    (hcode : ∀ e ∈ es, e.code ≠ TABLE_LOCK_EXPIRED)
    (hlen : es.length = ds.length + 1)
    (bad : Round) (hbadr : bad.extendResponses = es.map Except.error)
    (hbadb : bad.extendBackoff = ds.map some ++ [none])
    (rest : List Round) (delR : List Bool) (delB : List (Option Nat))
    (sf : Bool) :
    (renewalTask ttl (pre ++ bad :: rest) delR delB sf none).1
        = some (Except.error extendRetryExhausted)
    ∧ ((renewalTask ttl (pre ++ bad :: rest) delR delB sf none).2).countP
        isDeleteCall = 0
    ∧ ((renewalTask ttl (pre ++ bad :: rest) delR delB sf none).2).countP
        (isAbortWith extendRetryExhausted) = (if sf then 1 else 0)
    ∧ ((renewalTask ttl (pre ++ bad :: rest) delR delB sf none).2).countP
        isAbort = (if sf then 1 else 0) := by
  obtain ⟨tr0, obs2, heq, h1, h2, h3⟩ :=
    taskLoopPre pre hpre ttl (bad :: rest) delR delB sf 0
  obtain ⟨ha, hb⟩ := extendLoopExhaust ds es (obs2 + 2) hcode hlen
  have habw : tr0.countP (isAbortWith extendRetryExhausted) = 0 :=
    countP_zero_mono h3
      (by intro ev hev; cases ev <;> simp_all [isAbortWith, isAbort])
  have hbadeq : renewalTaskLoop ttl (bad :: rest) delR delB sf none obs2
      = (some (Except.error extendRetryExhausted),
         Event.renewalSleep (genRange (ttl / 3) (ttl * 2 / 3) bad.rand) true
           :: (Event.newBackoff
                 (some (ttl - genRange (ttl / 3) (ttl * 2 / 3) bad.rand))
               :: (tryExtendLockLoop (es.map Except.error)
                     (ds.map some ++ [none]) none (obs2 + 2)).2.1)
             ++ (if sf then [Event.forceAbort extendRetryExhausted]
                 else [])) := by
    rw [renewalTaskLoop]
    simp [fired_none, tryExtendLock, hbadr, hbadb, ha]
  have hcamp_nodel : ((tryExtendLockLoop (es.map Except.error)
      (ds.map some ++ [none]) none (obs2 + 2)).2.1).countP isDeleteCall = 0 :=
    countP_zero_of_all (extendLoop_events _ _ _ _)
      (by intro ev hev; cases ev <;> simp_all [extendEvOk, isDeleteCall])
  have hcamp_noab : ((tryExtendLockLoop (es.map Except.error)
      (ds.map some ++ [none]) none (obs2 + 2)).2.1).countP isAbort = 0 :=
    countP_zero_of_all (extendLoop_events _ _ _ _)
      (by intro ev hev; cases ev <;> simp_all [extendEvOk, isAbort])
  have hcamp_noabw : ((tryExtendLockLoop (es.map Except.error)
      (ds.map some ++ [none]) none (obs2 + 2)).2.1).countP
        (isAbortWith extendRetryExhausted) = 0 :=
    countP_zero_mono hcamp_noab
      (by intro ev hev; cases ev <;> simp_all [isAbortWith, isAbort])
  rw [renewalTask, heq, hbadeq]
  cases sf <;>
    simp [List.countP_append, List.countP_cons, h1, h2, h3, habw,
      hcamp_nodel, hcamp_noab, hcamp_noabw, isDeleteCall, isAbortWith,
      isAbort]

lemma taskLoopHeadOkNoDelete (rounds : List Round)
    (hall : ∀ rd ∈ rounds, rd.extendResponses.head? = some (Except.ok ())) :
    ∀ (ttl : Nat) (delR : List Bool) (delB : List (Option Nat)) (sf : Bool)
      (obs : Nat),
      ((renewalTaskLoop ttl rounds delR delB sf none obs).2).countP
        isDeleteCall = 0 := by
  induction rounds with
  | nil =>
    intro ttl delR delB sf obs
    simp [renewalTaskLoop, fired_none]
  | cons rd rest ih =>
    intro ttl delR delB sf obs
    have hhd := hall rd (List.mem_cons_self _ _)
    have htl : ∀ r ∈ rest, r.extendResponses.head? = some (Except.ok ()) :=
      fun r hr => hall r (List.mem_cons_of_mem _ hr)
    rw [renewalTaskLoop]
    simp [fired_none, tryExtendLock,
      headOk_trace rd.extendResponses hhd rd.extendBackoff (obs + 2),
      List.countP_cons, List.countP_append, isDeleteCall, ih htl]

lemma taskLoopHeadOkShutdown (rounds : List Round)
    (hall : ∀ rd ∈ rounds, rd.extendResponses.head? = some (Except.ok ())) :
    ∀ (ttl : Nat) (delB : List (Option Nat)) (sf : Bool) (k obs : Nat)
      (res : Except ErrorCode Unit),
      (renewalTaskLoop ttl rounds [true] delB sf (some k) obs).1 = some res →
      res = Except.ok ()
      ∧ ((renewalTaskLoop ttl rounds [true] delB sf (some k) obs).2).countP
          isDeleteCall = 1 := by
  induction rounds with
  | nil =>
    intro ttl delB sf k obs res hres
    rw [renewalTaskLoop] at hres ⊢
    by_cases h : fired (some k) obs = true
    · simp [h, tryDeleteLock, tryDeleteLockLoop] at hres ⊢
      simp [← hres, List.countP_cons, isDeleteCall]
    · simp [h] at hres
  | cons rd rest ih =>
    intro ttl delB sf k obs res hres
    have hhd := hall rd (List.mem_cons_self _ _)
    have htl : ∀ r ∈ rest, r.extendResponses.head? = some (Except.ok ()) :=
      fun r hr => hall r (List.mem_cons_of_mem _ hr)
    rw [renewalTaskLoop] at hres ⊢
    by_cases h : fired (some k) obs = true
    · simp [h, tryDeleteLock, tryDeleteLockLoop] at hres ⊢
      simp [← hres, List.countP_cons, isDeleteCall]
    · by_cases h2 : fired (some k) (obs + 1) = true
      · simp [h, h2, tryDeleteLock, tryDeleteLockLoop] at hres ⊢
        simp [← hres, List.countP_cons, isDeleteCall]
      · have hc := campaignHeadOk rd.extendResponses hhd rd.extendBackoff
          (some k) (obs + 2)
        simp only [h, h2, Bool.false_eq_true, if_false, tryExtendLock,
          hc] at hres ⊢
        obtain ⟨hres1, hcnt⟩ := ih htl ttl delB sf k _ res hres
        refine ⟨hres1, ?_⟩
        have hcamp : ((tryExtendLockLoop rd.extendResponses rd.extendBackoff
            (some k) (obs + 2)).2.1).countP isDeleteCall = 0 :=
          countP_zero_of_all (extendLoop_events _ _ _ _)
            (by intro ev hev; cases ev <;> simp_all [extendEvOk, isDeleteCall])
        simp [List.countP_cons, List.countP_append, isDeleteCall, hcamp, hcnt]

/-- C3: when every extension campaign succeeds on its first attempt, the
renewal task never calls delete_lock_revision while shutdown is never
requested; once shutdown is requested and the run completes with a first
delete RPC that succeeds, the task result is success and exactly one
delete RPC was issued; and the deletion path creates its fresh backoff
policy with the full ttl as elapsed budget. -/
theorem lockHolder_C3_delete_only_after_shutdown
    (ttl : Nat) (rounds : List Round)
    (hall : ∀ rd ∈ rounds, rd.extendResponses.head? = some (Except.ok ()))
    (delR : List Bool) (delB : List (Option Nat)) (sf : Bool) :
    ((renewalTask ttl rounds delR delB sf none).2).countP isDeleteCall = 0
    ∧ (∀ (k : Nat) (res : Except ErrorCode Unit),
        (renewalTask ttl rounds [true] delB sf (some k)).1 = some res →
        res = Except.ok ()
        ∧ ((renewalTask ttl rounds [true] delB sf (some k)).2).countP
            isDeleteCall = 1)
    ∧ ((tryDeleteLock delR delB (some ttl)).2).head?
        = some (Event.newBackoff (some ttl)) := by
  refine ⟨taskLoopHeadOkNoDelete rounds hall ttl delR delB sf 0, ?_, ?_⟩
  · intro k res hres
    exact taskLoopHeadOkShutdown rounds hall ttl delB sf k 0 res hres
  · simp [tryDeleteLock]

lemma genRange_bounds (lo hi r : Nat) (h : lo ≤ hi) :
    lo ≤ genRange lo hi r ∧ genRange lo hi r ≤ hi := by
  constructor
  · exact Nat.le_add_right _ _
  · have h1 : r % (hi - lo + 1) < hi - lo + 1 := Nat.mod_lt _ (Nat.succ_pos _)
    have h2 : r % (hi - lo + 1) ≤ hi - lo := Nat.lt_succ_iff.mp h1
    calc lo + r % (hi - lo + 1) ≤ lo + (hi - lo) := Nat.add_le_add_left h2 _
      _ = hi := Nat.add_sub_cancel' h

lemma taskRenewalSleepShape (ttl : Nat) (rounds : List Round)
    (delR : List Bool) (delB : List (Option Nat)) (sf : Bool)
    (sAt : Option Nat) :
    ∀ (obs d : Nat) (b : Bool),
      Event.renewalSleep d b
          ∈ (renewalTaskLoop ttl rounds delR delB sf sAt obs).2 →
      b = true ∧ ∃ r, d = genRange (ttl / 3) (ttl * 2 / 3) r := by
  induction rounds with
  | nil =>
    intro obs d b hmem
    rw [renewalTaskLoop] at hmem
    by_cases h : fired sAt obs = true
    · simp only [h, if_true] at hmem
      exact absurd hmem (deleteLock_no_renewalSleep _ _ _ _ _)
    · simp [h] at hmem
  | cons rd rest ih =>
    intro obs d b hmem
    rw [renewalTaskLoop] at hmem
    by_cases h : fired sAt obs = true
    · simp only [h, if_true] at hmem
      exact absurd hmem (deleteLock_no_renewalSleep _ _ _ _ _)
    · by_cases h2 : fired sAt (obs + 1) = true
      · simp only [h, h2, Bool.false_eq_true, if_false, if_true] at hmem
        rcases List.mem_cons.mp hmem with heq | hmem
        · rcases Event.renewalSleep.inj heq with ⟨rfl, rfl⟩
          exact ⟨rfl, rd.rand, rfl⟩
        · exact absurd hmem (deleteLock_no_renewalSleep _ _ _ _ _)
      · simp only [h, h2, Bool.false_eq_true, if_false] at hmem
        rcases hc1 : (tryExtendLock rd.extendResponses rd.extendBackoff
            (some (ttl - genRange (ttl / 3) (ttl * 2 / 3) rd.rand)) sAt
            (obs + 2)).1 with _ | cres
        · rw [hc1] at hmem
          simp only at hmem
          rcases List.mem_cons.mp hmem with heq | hmem
          · rcases Event.renewalSleep.inj heq with ⟨rfl, rfl⟩
            exact ⟨rfl, rd.rand, rfl⟩
          · exact absurd hmem (extendLock_no_renewalSleep _ _ _ _ _ _ _)
        · cases cres with
          | error e =>
            rw [hc1] at hmem
            simp only at hmem
            rcases List.mem_cons.mp hmem with heq | hmem
            · rcases Event.renewalSleep.inj heq with ⟨rfl, rfl⟩
              exact ⟨rfl, rd.rand, rfl⟩
            · rcases List.mem_append.mp hmem with hmem | hmem
              · exact absurd hmem (extendLock_no_renewalSleep _ _ _ _ _ _ _)
              · cases sf <;> simp at hmem
          | ok u =>
            rw [hc1] at hmem
            simp only at hmem
            rcases List.mem_cons.mp hmem with heq | hmem
            · rcases Event.renewalSleep.inj heq with ⟨rfl, rfl⟩
              exact ⟨rfl, rd.rand, rfl⟩
            · rcases List.mem_append.mp hmem with hmem | hmem
              · exact absurd hmem (extendLock_no_renewalSleep _ _ _ _ _ _ _)
              · exact ih _ _ _ hmem

/-- C4: for ttl > 0, every renewal-sleep duration sampled by the renewal
task lies in the closed interval from ttl/3 to ttl*2/3. -/
theorem lockHolder_C4_renewal_sleep_in_range
    (ttl : Nat) (rounds : List Round) (delR : List Bool)
    (delB : List (Option Nat)) (sf : Bool) (sAt : Option Nat)
    (d : Nat) (b : Bool) (httl : 0 < ttl)
    (hmem : Event.renewalSleep d b
        ∈ (renewalTask ttl rounds delR delB sf sAt).2) :
    ttl / 3 ≤ d ∧ d ≤ ttl * 2 / 3 := by
  obtain ⟨hb, r, rfl⟩ :=
    taskRenewalSleepShape ttl rounds delR delB sf sAt 0 d b hmem
  exact genRange_bounds _ _ _ (Nat.div_le_div_right (by omega))

lemma extendLoopTransientOk :
    ∀ (es : List ErrorCode) (ds : List Nat) (obs : Nat),
      (∀ e ∈ es, e.code ≠ TABLE_LOCK_EXPIRED) →
      es.length ≤ ds.length →
      (tryExtendLockLoop (es.map Except.error ++ [Except.ok ()])
          (ds.map some) none obs).1 = some (Except.ok ())
      ∧ ((tryExtendLockLoop (es.map Except.error ++ [Except.ok ()])
            (ds.map some) none obs).2.1).countP isExtendCall
          = es.length + 1 := by
  intro es
  induction es with
  | nil =>
    intro ds obs hcode hlen
    constructor <;>
      simp [tryExtendLockLoop, fired_none, List.countP_cons, isExtendCall]
  | cons e es2 ih =>
    intro ds obs hcode hlen
    cases ds with
    | nil => simp at hlen
    | cons dd ds2 =>
      have hlen2 : es2.length ≤ ds2.length := by simpa using hlen
      have he : e.code ≠ TABLE_LOCK_EXPIRED := hcode e (by simp)
      have hcode2 : ∀ x ∈ es2, x.code ≠ TABLE_LOCK_EXPIRED :=
        fun x hx => hcode x (by simp [hx])
      obtain ⟨ha, hb⟩ := ih ds2 (obs + 2) hcode2 hlen2
      constructor
      · simp [tryExtendLockLoop, fired_none, he, ha]
      · simp [tryExtendLockLoop, fired_none, he, List.countP_cons,
          isExtendCall, hb, Nat.add_comm]

/-- C5: if an extension campaign fails transiently k times and then
succeeds, with the backoff policy still yielding delays (budget not
exhausted) and shutdown never requested, the extend RPC is issued exactly
k+1 times, the campaign returns success, and the renewal task performs no
force-abort and no delete call on such a run. -/
theorem lockHolder_C5_k_transient_then_success
    (ttl : Nat) (es : List ErrorCode) (ds : List Nat)
    (hcode : ∀ e ∈ es, e.code ≠ TABLE_LOCK_EXPIRED)
    (hlen : es.length ≤ ds.length)
    (r : Nat) (bud : Option Nat) (obs : Nat)
    (delR : List Bool) (delB : List (Option Nat)) (sf : Bool) :
    (tryExtendLock (es.map Except.error ++ [Except.ok ()]) (ds.map some)
        bud none obs).1 = some (Except.ok ())
    ∧ ((tryExtendLock (es.map Except.error ++ [Except.ok ()]) (ds.map some)
          bud none obs).2.1).countP isExtendCall = es.length + 1
    ∧ ((renewalTask ttl [⟨r, es.map Except.error ++ [Except.ok ()],
          ds.map some⟩] delR delB sf none).2).countP isAbort = 0
    ∧ ((renewalTask ttl [⟨r, es.map Except.error ++ [Except.ok ()],
          ds.map some⟩] delR delB sf none).2).countP isDeleteCall = 0
    ∧ ((renewalTask ttl [⟨r, es.map Except.error ++ [Except.ok ()],
          ds.map some⟩] delR delB sf none).2).countP isExtendCall
        = es.length + 1 := by
  obtain ⟨ha, hb⟩ := extendLoopTransientOk es ds obs hcode hlen
  obtain ⟨ha2, hb2⟩ := extendLoopTransientOk es ds 2 hcode hlen
  have hnoab : ((tryExtendLockLoop (es.map Except.error ++ [Except.ok ()])
      (ds.map some) none 2).2.1).countP isAbort = 0 :=
    countP_zero_of_all (extendLoop_events _ _ _ _)
      (by intro ev hev; cases ev <;> simp_all [extendEvOk, isAbort])
  have hnodel : ((tryExtendLockLoop (es.map Except.error ++ [Except.ok ()])
      (ds.map some) none 2).2.1).countP isDeleteCall = 0 :=
    countP_zero_of_all (extendLoop_events _ _ _ _)
      (by intro ev hev; cases ev <;> simp_all [extendEvOk, isDeleteCall])
  have htask : renewalTask ttl [⟨r, es.map Except.error ++ [Except.ok ()],
      ds.map some⟩] delR delB sf none
      = (none, Event.renewalSleep (genRange (ttl / 3) (ttl * 2 / 3) r) true
          :: Event.newBackoff
               (some (ttl - genRange (ttl / 3) (ttl * 2 / 3) r))
          :: (tryExtendLockLoop (es.map Except.error ++ [Except.ok ()])
                (ds.map some) none 2).2.1) := by
    rw [renewalTask, renewalTaskLoop]
    simp [fired_none, tryExtendLock, ha2, renewalTaskLoop]
  refine ⟨by simp [tryExtendLock, ha], by simp [tryExtendLock,
    List.countP_cons, isExtendCall, hb, Nat.add_comm], ?_, ?_, ?_⟩ <;>
    rw [htask] <;>
    simp [List.countP_cons, isAbort, isDeleteCall, isExtendCall, hnoab,
      hnodel, hb2, Nat.add_comm]

lemma extendLoopTransientSome :
    ∀ (es : List ErrorCode) (ds : List Nat) (k obs : Nat)
      (res : Except ErrorCode Unit),
      (∀ e ∈ es, e.code ≠ TABLE_LOCK_EXPIRED) →
      (tryExtendLockLoop (es.map Except.error) (ds.map some) (some k)
          obs).1 = some res →
      res = Except.ok ()
      ∧ fired (some k)
          ((tryExtendLockLoop (es.map Except.error) (ds.map some) (some k)
              obs).2.2) = true := by
  intro es
  induction es with
  | nil =>
    intro ds k obs res hcode hres
    rw [tryExtendLockLoop.eq_def] at hres ⊢
    by_cases h : fired (some k) obs = true
    · simp [h] at hres ⊢
      exact ⟨hres.symm, fired_succ h⟩
    · simp [h] at hres
  | cons e es2 ih =>
    intro ds k obs res hcode hres
    have he : e.code ≠ TABLE_LOCK_EXPIRED := hcode e (by simp)
    have hcode2 : ∀ x ∈ es2, x.code ≠ TABLE_LOCK_EXPIRED :=
      fun x hx => hcode x (by simp [hx])
    rw [tryExtendLockLoop.eq_def] at hres ⊢
    by_cases h : fired (some k) obs = true
    · simp [h] at hres ⊢
      exact ⟨hres.symm, fired_succ h⟩
    · cases ds with
      | nil => simp [h, he] at hres
      | cons dd ds2 =>
        by_cases h2 : fired (some k) (obs + 1) = true
        · simp [h, he, h2] at hres ⊢
          exact ⟨hres.symm, fired_succ h2⟩
        · simp [h, he, h2] at hres ⊢
          exact ih ds2 k (obs + 2) res hcode2 hres

/-- C9: an extension campaign interrupted by shutdown — the shutdown
state observed at a flag check or winning the race against a backoff
sleep — makes try_extend_lock return success even though no extend RPC
succeeded (all catalog answers in the script are transient errors), so
the renewal task never force-aborts the owning query on this path and
proceeds to the deletion path, issuing its delete call. -/
theorem lockHolder_C9_shutdown_interrupt_returns_ok
    (es : List ErrorCode) (ds : List Nat) (k obs : Nat) (bud : Option Nat)
    (res : Except ErrorCode Unit)
    (hcode : ∀ e ∈ es, e.code ≠ TABLE_LOCK_EXPIRED)
    (ttl r : Nat) (delB : List (Option Nat)) (sf : Bool)
    (res2 : Except ErrorCode Unit)
    (hres : (tryExtendLock (es.map Except.error) (ds.map some) bud (some k)
        obs).1 = some res)
    (hres2 : (renewalTask ttl [⟨r, es.map Except.error, ds.map some⟩]
        [true] delB sf (some k)).1 = some res2) :
    res = Except.ok ()
    ∧ res2 = Except.ok ()
    ∧ ((renewalTask ttl [⟨r, es.map Except.error, ds.map some⟩] [true]
          delB sf (some k)).2).countP isAbort = 0
    ∧ ((renewalTask ttl [⟨r, es.map Except.error, ds.map some⟩] [true]
          delB sf (some k)).2).countP isDeleteCall = 1 := by
  have hres1 : (tryExtendLockLoop (es.map Except.error) (ds.map some)
      (some k) obs).1 = some res := by
    simpa [tryExtendLock] using hres
  obtain ⟨hok, _⟩ := extendLoopTransientSome es ds k obs res hcode hres1
  refine ⟨hok, ?_⟩
  rw [renewalTask] at hres2 ⊢
  rw [renewalTaskLoop] at hres2 ⊢
  by_cases h : fired (some k) 0 = true
  · simp [h, tryDeleteLock, tryDeleteLockLoop] at hres2 ⊢
    simp [← hres2, List.countP_cons, isAbort, isDeleteCall]
  · by_cases h2 : fired (some k) 1 = true
    · simp [h, h2, tryDeleteLock, tryDeleteLockLoop] at hres2 ⊢
      simp [← hres2, List.countP_cons, isAbort, isDeleteCall]
    · rcases hc1 : (tryExtendLockLoop (es.map Except.error) (ds.map some)
          (some k) 2).1 with _ | cres
      · rw [show (0 : Nat) + 1 = 1 from rfl] at hres2 ⊢
        simp [h, h2, tryExtendLock, hc1] at hres2
      · obtain ⟨hcok, hcf⟩ :=
          extendLoopTransientSome es ds k 2 cres hcode hc1
        subst hcok
        rw [show (0 : Nat) + 1 = 1 from rfl] at hres2 ⊢
        simp only [h, h2, Bool.false_eq_true, if_false, tryExtendLock,
          hc1] at hres2 ⊢
        rw [renewalTaskLoop] at hres2 ⊢
        simp only [hcf, if_true] at hres2 ⊢
        simp [tryDeleteLock, tryDeleteLockLoop] at hres2 ⊢
        constructor
        · simp [← hres2]
        · have hnoab : ((tryExtendLockLoop (es.map Except.error)
              (ds.map some) (some k) 2).2.1).countP isAbort = 0 :=
            countP_zero_of_all (extendLoop_events _ _ _ _)
              (by intro ev hev; cases ev <;> simp_all [extendEvOk, isAbort])
          have hnodel : ((tryExtendLockLoop (es.map Except.error)
              (ds.map some) (some k) 2).2.1).countP isDeleteCall = 0 :=
            countP_zero_of_all (extendLoop_events _ _ _ _)
              (by intro ev hev; cases ev <;>
                simp_all [extendEvOk, isDeleteCall])
          simp [List.countP_cons, List.countP_append, isAbort, isDeleteCall,
            hnoab, hnodel]
          intro a ha
          rcases ha with hmem | rfl | rfl
          · have h9 := List.all_eq_true.mp (extendLoop_events _ _ _ _) _ hmem
            cases a <;> simp_all [extendEvOk]
          · rfl
          · rfl

/-- C6: start issues exactly one create RPC; on catalog failure it
returns that error with no metric and no spawned task; on success it
records the metric once, spawns the renewal task, and returns the
revision from the catalog response; the returned outcome does not depend
on anything the spawned task will encounter. -/
theorem lockHolder_C6_acquire_once_metric_spawn
    (req : CreateLockRevReq) (cr : Except ErrorCode Nat)
    (rounds : List Round) (delR : List Bool) (delB : List (Option Nat))
    (sf : Bool) (sAt : Option Nat) :
    ((start req cr rounds delR delB sf sAt).1.events).countP isCreateCall = 1
    ∧ (∀ e, cr = Except.error e →
        start req cr rounds delR delB sf sAt
          = ({ result := Except.error e, events := [Event.createCall],
               spawned := false }, none))
    ∧ (∀ rev, cr = Except.ok rev →
        (start req cr rounds delR delB sf sAt).1
            = { result := Except.ok rev,
                events := [Event.createCall, Event.metricIncr],
                spawned := true }
        ∧ (start req cr rounds delR delB sf sAt).2
            = some (renewalTask req.ttl rounds delR delB sf sAt))
    ∧ (∀ (rounds2 : List Round) (delR2 : List Bool)
         (delB2 : List (Option Nat)) (sf2 : Bool) (sAt2 : Option Nat),
        (start req cr rounds2 delR2 delB2 sf2 sAt2).1
          = (start req cr rounds delR delB sf sAt).1) := by
  cases cr with
  | error e =>
    refine ⟨by simp [start, List.countP_cons, isCreateCall, isMetricIncr],
      ?_, ?_, ?_⟩
    · intro e2 he2
      rw [Except.error.inj he2] at *
      rfl
    · intro rev hrev
      exact absurd hrev (by simp)
    · intro rounds2 delR2 delB2 sf2 sAt2
      rfl
  | ok rev =>
    refine ⟨by simp [start, List.countP_cons, isCreateCall, isMetricIncr],
      ?_, ?_, ?_⟩
    · intro e2 he2
      exact absurd he2 (by simp)
    · intro rev2 hrev2
      rw [Except.ok.inj hrev2] at *
      exact ⟨rfl, rfl⟩
    · intro rounds2 delR2 delB2 sf2 sAt2
      rfl

/-- C7: shutdown is idempotent on the shared state — running it twice
leaves the shutdown flag and the level-triggered signal exactly as
running it once does, with both set. -/
theorem lockHolder_C7_shutdown_idempotent (s : SharedState) :
    shutdownOp (shutdownOp s) = shutdownOp s
    ∧ (shutdownOp s).shutdown_flag = true
    ∧ (shutdownOp s).notify_fired = true :=
  ⟨rfl, rfl, rfl⟩

/-- C8 counterexample: the claim that every backoff-delay sleep of the
renewal task, including those of the deletion-retry loop, races the
shutdown signal is false on the code: a run whose delete RPC fails once
before succeeding performs a backoff sleep that is a plain, unraced
sleep (lock_holder.rs line 191). -/
theorem lockHolder_C8_counterexample :
    Event.backoffSleep 5 false
        ∈ (renewalTask 9 [] [false, true] [some 5] true (some 0)).2
    ∧ allSleepsRaced
        (renewalTask 9 [] [false, true] [some 5] true (some 0)).2
      = false := by
  constructor <;> decide

/-- C8 amended: every backoff sleep of an extension campaign is raced
against the shutdown signal, every renewal-interval sleep of the task is
raced against the shutdown signal, but the backoff sleeps of the
deletion-retry loop are plain sleeps that do not race the signal. -/
theorem lockHolder_C8_race_inventory
    (rs : List (Except ErrorCode Unit)) (bs : List (Option Nat))
    (bud sAt : Option Nat) (obs : Nat) (delR : List Bool)
    (delB : List (Option Nat)) (mre : Option Nat) :
    allSleepsRaced ((tryExtendLock rs bs bud sAt obs).2.1) = true
    ∧ (∀ (d : Nat) (b : Bool),
        Event.backoffSleep d b ∈ (tryDeleteLock delR delB mre).2 →
        b = false)
    ∧ (∀ (ttl : Nat) (rounds : List Round) (delR2 : List Bool)
         (delB2 : List (Option Nat)) (sf : Bool) (sAt2 : Option Nat)
         (d : Nat) (b : Bool),
        Event.renewalSleep d b
            ∈ (renewalTask ttl rounds delR2 delB2 sf sAt2).2 →
        b = true) := by
  refine ⟨extendLock_sleeps_raced rs bs bud sAt obs, ?_, ?_⟩
  · intro d b hmem
    exact deleteLock_sleeps_unraced delR delB mre d b hmem
  · intro ttl rounds delR2 delB2 sf sAt2 d b hmem
    exact (taskRenewalSleepShape ttl rounds delR2 delB2 sf sAt2 0 d b
      hmem).1

/-- C10: an extension attempt failing with the TABLE_LOCK_EXPIRED
condition is escalated before the backoff policy is consulted — the
outcome is the same for every backoff script, including one whose budget
is already exhausted, and no backoff sleep occurs. -/
theorem lockHolder_C10_expired_before_backoff
    (e : ErrorCode) (rest : List (Except ErrorCode Unit))
    (backoff : List (Option Nat)) (bud sAt : Option Nat) (obs : Nat)
    (he : e.code = TABLE_LOCK_EXPIRED) (hf : fired sAt obs = false) :
    tryExtendLock (Except.error e :: rest) backoff bud sAt obs
      = (some (Except.error e),
         [Event.newBackoff bud, Event.extendCall], obs + 1) := by
  simp [tryExtendLock, tryExtendLockLoop, he, hf]

/-- Witness for C1 at a concrete run. -/
theorem lockHolder_C1_witness :
    (renewalTask 9 [⟨0, [Except.error (ErrorCode.mk TABLE_LOCK_EXPIRED "x")],
        []⟩] [] [] true none).1
        = some (Except.error (ErrorCode.mk TABLE_LOCK_EXPIRED "x"))
    ∧ ((renewalTask 9 [⟨0, [Except.error
          (ErrorCode.mk TABLE_LOCK_EXPIRED "x")], []⟩] [] [] true
          none).2).countP isDeleteCall = 0
    ∧ ((renewalTask 9 [⟨0, [Except.error
          (ErrorCode.mk TABLE_LOCK_EXPIRED "x")], []⟩] [] [] true
          none).2).countP
        (isAbortWith (ErrorCode.mk TABLE_LOCK_EXPIRED "x")) = 1
    ∧ ((renewalTask 9 [⟨0, [Except.error
          (ErrorCode.mk TABLE_LOCK_EXPIRED "x")], []⟩] [] [] true
          none).2).countP isAbort = 1
    ∧ ((renewalTask 9 [⟨0, [Except.error
          (ErrorCode.mk TABLE_LOCK_EXPIRED "x")], []⟩] [] [] true
          none).2).countP isExtendCall = 1 := by
  have h := lockHolder_C1_expired_fatal_no_retry_no_delete 9 [] (by simp)
    (ErrorCode.mk TABLE_LOCK_EXPIRED "x") rfl
    ⟨0, [Except.error (ErrorCode.mk TABLE_LOCK_EXPIRED "x")], []⟩ [] rfl
    [] [] [] true
  simpa using h

/-- Witness for C2 at a concrete run. -/
theorem lockHolder_C2_witness :
    (renewalTask 9 [⟨0, [Except.error (ErrorCode.mk 1 "t")], [none]⟩] [] []
        true none).1 = some (Except.error extendRetryExhausted)
    ∧ ((renewalTask 9 [⟨0, [Except.error (ErrorCode.mk 1 "t")], [none]⟩]
          [] [] true none).2).countP isDeleteCall = 0
    ∧ ((renewalTask 9 [⟨0, [Except.error (ErrorCode.mk 1 "t")], [none]⟩]
          [] [] true none).2).countP (isAbortWith extendRetryExhausted) = 1
    ∧ ((renewalTask 9 [⟨0, [Except.error (ErrorCode.mk 1 "t")], [none]⟩]
          [] [] true none).2).countP isAbort = 1 := by
  have h := lockHolder_C2_retry_exhaustion_aborts_no_delete 9 [] (by simp)
    [ErrorCode.mk 1 "t"] [] (by decide) rfl
    ⟨0, [Except.error (ErrorCode.mk 1 "t")], [none]⟩ rfl rfl [] [] [] true
  simpa using h

/-- Witness for C3 at a concrete run. -/
theorem lockHolder_C3_witness :
    ((renewalTask 9 [⟨0, [Except.ok ()], []⟩] [] [] true none).2).countP
        isDeleteCall = 0
    ∧ (renewalTask 9 [⟨0, [Except.ok ()], []⟩] [true] [] true
          (some 0)).1 = some (Except.ok ())
    ∧ ((renewalTask 9 [⟨0, [Except.ok ()], []⟩] [true] [] true
          (some 0)).2).countP isDeleteCall = 1
    ∧ ((tryDeleteLock [] [] (some 9)).2).head?
        = some (Event.newBackoff (some 9)) := by
  have h := lockHolder_C3_delete_only_after_shutdown 9
    [⟨0, [Except.ok ()], []⟩] (by simp) [] [] true
  exact ⟨h.1, by decide, (h.2.1 0 (Except.ok ()) (by decide)).2, h.2.2⟩

/-- Witness for C4 at a concrete run. -/
theorem lockHolder_C4_witness :
    0 < 9
    ∧ Event.renewalSleep 3 true
        ∈ (renewalTask 9 [⟨0, [Except.ok ()], []⟩] [] [] true none).2
    ∧ 9 / 3 ≤ 3 ∧ 3 ≤ 9 * 2 / 3 := by
  have h := lockHolder_C4_renewal_sleep_in_range 9
    [⟨0, [Except.ok ()], []⟩] [] [] true none 3 true (by decide) (by decide)
  exact ⟨by decide, by decide, h.1, h.2⟩

/-- Witness for C5 at a concrete run. -/
theorem lockHolder_C5_witness :
    (tryExtendLock [Except.error (ErrorCode.mk 1 "t"), Except.ok ()]
        [some 2] none none 0).1 = some (Except.ok ())
    ∧ ((tryExtendLock [Except.error (ErrorCode.mk 1 "t"), Except.ok ()]
          [some 2] none none 0).2.1).countP isExtendCall = 2
    ∧ ((renewalTask 9 [⟨0, [Except.error (ErrorCode.mk 1 "t"),
          Except.ok ()], [some 2]⟩] [] [] true none).2).countP isAbort = 0
    ∧ ((renewalTask 9 [⟨0, [Except.error (ErrorCode.mk 1 "t"),
          Except.ok ()], [some 2]⟩] [] [] true none).2).countP
        isDeleteCall = 0
    ∧ ((renewalTask 9 [⟨0, [Except.error (ErrorCode.mk 1 "t"),
          Except.ok ()], [some 2]⟩] [] [] true none).2).countP
        isExtendCall = 2 := by
  have h := lockHolder_C5_k_transient_then_success 9 [ErrorCode.mk 1 "t"]
    [2] (by decide) (by decide) 0 none 0 [] [] true
  simpa using h

/-- Witness for C6 at concrete catalog answers. -/
theorem lockHolder_C6_witness :
    ((start ⟨⟨"table", 1⟩, 9⟩ (Except.ok 7) [] [] [] true
        none).1.events).countP isCreateCall = 1
    ∧ start ⟨⟨"table", 1⟩, 9⟩ (Except.error (ErrorCode.mk 1 "e")) [] [] []
          true none
        = ({ result := Except.error (ErrorCode.mk 1 "e"),
             events := [Event.createCall], spawned := false }, none)
    ∧ (start ⟨⟨"table", 1⟩, 9⟩ (Except.ok 7) [] [] [] true none).1
        = { result := Except.ok 7,
            events := [Event.createCall, Event.metricIncr],
            spawned := true } := by
  have h1 := lockHolder_C6_acquire_once_metric_spawn ⟨⟨"table", 1⟩, 9⟩
    (Except.ok 7) [] [] [] true none
  have h2 := lockHolder_C6_acquire_once_metric_spawn ⟨⟨"table", 1⟩, 9⟩
    (Except.error (ErrorCode.mk 1 "e")) [] [] [] true none
  exact ⟨h1.1, h2.2.1 (ErrorCode.mk 1 "e") rfl, (h1.2.2.1 7 rfl).1⟩

/-- Witness for the amended C8 at concrete runs. -/
theorem lockHolder_C8_witness :
    allSleepsRaced ((tryExtendLock [Except.error (ErrorCode.mk 1 "t")]
        [some 2] none none 0).2.1) = true
    ∧ (Event.backoffSleep 2 false
          ∈ (tryDeleteLock [false, true] [some 2] none).2
        ∧ false = false)
    ∧ (Event.renewalSleep 3 true
          ∈ (renewalTask 9 [⟨0, [Except.ok ()], []⟩] [] [] true none).2
        ∧ true = true) := by
  have h := lockHolder_C8_race_inventory
    [Except.error (ErrorCode.mk 1 "t")] [some 2] none none 0
    [false, true] [some 2] none
  exact ⟨h.1, ⟨by decide, h.2.1 2 false (by decide)⟩,
    ⟨by decide, h.2.2 9 [⟨0, [Except.ok ()], []⟩] [] [] true none 3 true
      (by decide)⟩⟩

/-- Witness for C9 at a concrete run with shutdown already requested. -/
theorem lockHolder_C9_witness :
    (Except.ok () : Except ErrorCode Unit) = Except.ok ()
    ∧ ((renewalTask 9 [⟨0, [Except.error (ErrorCode.mk 1 "t")], [some 1]⟩]
          [true] [] true (some 0)).2).countP isAbort = 0
    ∧ ((renewalTask 9 [⟨0, [Except.error (ErrorCode.mk 1 "t")], [some 1]⟩]
          [true] [] true (some 0)).2).countP isDeleteCall = 1 := by
  have h := lockHolder_C9_shutdown_interrupt_returns_ok
    [ErrorCode.mk 1 "t"] [1] 0 0 none (Except.ok ()) (by decide) 9 0 []
    true (Except.ok ()) (by decide) (by decide)
  exact ⟨h.1, h.2.2.1, h.2.2.2⟩

/-- Witness for C10 at a concrete expired answer with the backoff budget
already exhausted. -/
theorem lockHolder_C10_witness :
    tryExtendLock [Except.error (ErrorCode.mk TABLE_LOCK_EXPIRED "x")]
        [none] (some 5) none 0
      = (some (Except.error (ErrorCode.mk TABLE_LOCK_EXPIRED "x")),
         [Event.newBackoff (some 5), Event.extendCall], 1) :=
  lockHolder_C10_expired_before_backoff
    (ErrorCode.mk TABLE_LOCK_EXPIRED "x") [] [none] (some 5) none 0 rfl rfl

end DatabendLock
